import Mathlib

/-!
Verification of the resilient command execution / circuit-breaker / retry layer
of the garden-tiller repository.

The Python sources embedded here are:
  library/resilient_ipmi.py    (clean_ipmi_stderr, has_real_errors, run_module)
  library/resilient_command.py (run_with_timeout, main)
  library/idrac_utils.py       (retry_with_backoff decorator, module breaker)
  library/ilo_utils.py         (identical retry_with_backoff decorator and breaker)

External effects (subprocess execution, wall-clock time, the pybreaker-wrapped
call outcome) are modelled as explicit parameters: a function from the attempt
number to the outcome observed at that attempt.  The pybreaker CircuitBreaker
itself is an external library; its behaviour is modelled from the spec (see
the `Breaker` structure below).
-/

namespace GardenTiller

/-! ## Python-style character utilities

These mirror the exact string operations performed by
`resilient_ipmi.clean_ipmi_stderr` (re.sub with two literal-based patterns
under IGNORECASE | MULTILINE, a blank-line collapse, and `str.strip`).
-/

/-- ASCII lower-casing, as used by `re.IGNORECASE` on the ASCII literals of the
benign-error patterns. -/
def lowerAscii (c : Char) : Char :=
  if 'A' ≤ c && c ≤ 'Z' then Char.ofNat (c.toNat + 32) else c

/-- Python `\s` / `str.strip` whitespace over the ASCII range:
space, tab, newline, carriage return, vertical tab, form feed. -/
def isPyWs (c : Char) : Bool :=
  c = ' ' || c = '\t' || c = '\n' || c = '\r' || c = Char.ofNat 11 || c = Char.ofNat 12

/-- Drop the maximal leading run of Python whitespace (the greedy `\s*`). -/
def dropWs : List Char → List Char
  | [] => []
  | c :: cs => if isPyWs c then dropWs cs else c :: cs

/-- Python `str.strip()`: drop whitespace at both ends. -/
def pyStrip (s : List Char) : List Char :=
  ((dropWs s).reverse |> dropWs).reverse

/-- Case-insensitive literal match at the head of the string.  The pattern is
already lower-cased; returns the remainder after the literal on success. -/
def matchCILit : List Char → List Char → Option (List Char)
  | [], s => some s
  | _ :: _, [] => none
  | p :: ps, c :: cs => if lowerAscii c = p then matchCILit ps cs else none

/-- Lower-cased literal of the first benign pattern
`r'Unable to Get Channel Cipher Suites\s*'`. -/
def pat1 : List Char := "unable to get channel cipher suites".data

/-- Lower-cased literal of the second benign pattern
`r'Get Channel Cipher Suites command failed.*?\n?'`. -/
def pat2 : List Char := "get channel cipher suites command failed".data

/-- `re.sub(pat1, '', s)`: left-to-right, non-overlapping removal of the
literal followed by the greedy `\s*` (the maximal whitespace run).  Scanning
resumes after the match, exactly as `re.sub` does.  Fuel-indexed; each step
consumes at least one character, so fuel = length of the input suffices. -/
def subCipherSuites : Nat → List Char → List Char
  | 0, s => s
  | _, [] => []
  | fuel + 1, c :: cs =>
    match matchCILit pat1 (c :: cs) with
    | some rest => subCipherSuites fuel (dropWs rest)
    | none => c :: subCipherSuites fuel cs

/-- In `pat2` the trailing `.*?\n?` is a lazy dot-star (which always matches
the empty string, since the rest of the pattern is optional) followed by a
greedy optional newline: the match is the literal plus one immediately
following newline when present. -/
def dropOneNl : List Char → List Char
  | '\n' :: cs => cs
  | s => s

/-- `re.sub(pat2, '', s)`: removal of the second benign pattern. -/
def subCommandFailed : Nat → List Char → List Char
  | 0, s => s
  | _, [] => []
  | fuel + 1, c :: cs =>
    match matchCILit pat2 (c :: cs) with
    | some rest => subCommandFailed fuel (dropOneNl rest)
    | none => c :: subCommandFailed fuel cs

/-- For `re.sub(r'\n\s*\n', '\n', s)`: given the text after a newline, the
greedy `\s*` backtracks to the last newline inside the maximal whitespace
run; returns the remainder after that newline if one exists. -/
def lastNlSplit : List Char → Option (List Char)
  | [] => none
  | c :: cs =>
    if isPyWs c then
      match lastNlSplit cs with
      | some rest => some rest
      | none => if c = '\n' then some cs else none
    else none

/-- `re.sub(r'\n\s*\n', '\n', s)`: collapse blank lines, scanning left to
right and resuming after each replacement. -/
def collapseNl : Nat → List Char → List Char
  | 0, s => s
  | _, [] => []
  | fuel + 1, c :: cs =>
    if c = '\n' then
      match lastNlSplit cs with
      | some rest => '\n' :: collapseNl fuel rest
      | none => c :: collapseNl fuel cs
    else c :: collapseNl fuel cs

/-- `resilient_ipmi.clean_ipmi_stderr`: falsy-input guard, the two benign
pattern substitutions, blank-line collapse, and final strip. -/
def clean_ipmi_stderr (stderr_content : String) : String :=
  if stderr_content = "" then stderr_content
  else
    let s0 := stderr_content.data
    let s1 := subCipherSuites (s0.length + 1) s0
    let s2 := subCommandFailed (s1.length + 1) s1
    let s3 := collapseNl (s2.length + 1) s2
    String.mk (pyStrip s3)

/-- `resilient_ipmi.has_real_errors`: the cleaned stderr is non-empty after
stripping. -/
def has_real_errors (stderr_content : String) : Bool :=
  !(pyStrip (clean_ipmi_stderr stderr_content).data).isEmpty

/-- Exact (case-sensitive) literal match at the head of a string. -/
def startsWithLit : List Char → List Char → Bool
  | [], _ => true
  | _ :: _, [] => false
  | p :: ps, c :: cs => c = p && startsWithLit ps cs

/-- The literal `pat` occurs somewhere inside `hay`. -/
def hasSub (pat : List Char) : List Char → Bool
  | [] => pat.isEmpty
  | c :: cs => startsWithLit pat (c :: cs) || hasSub pat cs

/-- The sample stderr used by the spec's stderr-cleaning test vector. -/
def sampleStderr : String :=
  "Unable to Get Channel Cipher Suites\nGet Channel Cipher Suites command failed\n\nreal error here\n"

/-! ## Error kinds and the circuit breaker

The concrete Python exception classes that the sources name in their
`exclude=` lists, plus a generic kind for any other exception. -/

inductive ErrKind
  | keyError
  | valueError
  | fileNotFoundError
  | timeoutExpired
  | keyboardInterrupt
  | other
deriving DecidableEq

/-- The three circuit states named by the sources and the spec. -/
inductive CircuitState
  | Closed
  | Open
  | HalfOpen
deriving DecidableEq

/-- Modelled from the spec: `pybreaker.CircuitBreaker` is an external
dependency of the repository (its sources are not part of this repository);
the state machine here follows spec section 4.2: `failure_threshold`
(`fail_max`), `reset_timeout`, the excluded error kinds that neither count
toward the threshold nor change state, the current state, the consecutive
failure counter, and the time the circuit opened. -/
structure Breaker where
  fail_max : Nat
  reset_timeout : Nat
  excluded : ErrKind → Bool
  state : CircuitState
  fail_counter : Nat
  opened_at : Nat

/-- Result of one call through the breaker: the operation's value, a
`CircuitBreakerError` rejection, or the operation's own error re-raised. -/
inductive CallResult (α : Type)
  | ok (v : α)
  | circuitOpen
  | err (k : ErrKind)
deriving DecidableEq

/-- One call through the breaker: the outcome, the updated breaker, and
whether the wrapped operation was actually invoked. -/
structure CallOut (α : Type) where
  res : CallResult α
  breaker : Breaker
  invoked : Bool

/-- Modelled from the spec (4.2): successful execution closes the circuit and
resets the consecutive-failure counter. -/
def Breaker.onSuccess (b : Breaker) : Breaker :=
  { b with state := .Closed, fail_counter := 0 }

/-- Modelled from the spec (4.2): a non-excluded failure increments the
counter; a failed half-open probe reopens immediately, and a closed breaker
opens once the counter reaches the threshold. -/
def Breaker.onFailure (b : Breaker) (now : Nat) : Breaker :=
  match b.state with
  | .HalfOpen => { b with state := .Open, fail_counter := b.fail_counter + 1, opened_at := now }
  | _ =>
    if b.fail_max ≤ b.fail_counter + 1 then
      { b with state := .Open, fail_counter := b.fail_counter + 1, opened_at := now }
    else
      { b with fail_counter := b.fail_counter + 1 }

/-- Execute the operation's outcome against the breaker (state not Open, or
an allowed half-open probe): excluded errors propagate without any state
change. -/
def Breaker.exec (b : Breaker) (now : Nat) (op : Except ErrKind α) : CallOut α :=
  match op with
  | .ok v => ⟨.ok v, b.onSuccess, true⟩
  | .error k =>
    if b.excluded k then ⟨.err k, b, true⟩
    else ⟨.err k, b.onFailure now, true⟩

/-- Modelled from the spec (4.2): `call` rejects with `CircuitBreakerError`
while the circuit is Open and the reset timeout has not elapsed; once it has
elapsed the breaker moves to HalfOpen and lets a probe through. -/
def Breaker.call (b : Breaker) (now : Nat) (op : Except ErrKind α) : CallOut α :=
  match b.state with
  | .Open =>
    if now - b.opened_at < b.reset_timeout then ⟨.circuitOpen, b, false⟩
    else ({ b with state := .HalfOpen } : Breaker).exec now op
  | _ => b.exec now op

/-- Fold a sequence of failing operations (with the given error kinds)
through the breaker. -/
def applyFailures (b : Breaker) (now : Nat) (ks : List ErrKind) : Breaker :=
  ks.foldl (fun b k => (b.call now (Except.error k : Except ErrKind Unit)).breaker) b

namespace IdracUtils

/-- The module-level breaker of `idrac_utils.py` (`ilo_utils.py` configures
an identical one): `fail_max=5, reset_timeout=30,
exclude=[KeyError, ValueError, FileNotFoundError]`. -/
def breaker : Breaker :=
  ⟨5, 30,
   fun k => match k with
     | .keyError => true
     | .valueError => true
     | .fileNotFoundError => true
     | _ => false,
   .Closed, 0, 0⟩

end IdracUtils

namespace ResilientIpmi

/-- The module-level breaker of `resilient_ipmi.py`: `fail_max=3,
reset_timeout=60, exclude=[subprocess.TimeoutExpired, KeyboardInterrupt]`. -/
def ipmi_breaker : Breaker :=
  ⟨3, 60,
   fun k => match k with
     | .timeoutExpired => true
     | .keyboardInterrupt => true
     | _ => false,
   .Closed, 0, 0⟩

/-- Outcome of one call to the breaker-wrapped `execute_ipmi_command` as seen
by `run_module`: the returned execution dict (returncode, stdout, stderr),
a `pybreaker.CircuitBreakerError`, or any other exception. -/
inductive IpmiOutcome
  | ok (returncode : Int) (stdout stderr : String)
  | circuitOpen
  | exc
deriving DecidableEq

/-- The fields of `run_module`'s result dict that the claims talk about,
plus the list of `time.sleep` durations performed. -/
structure IpmiResult where
  attempts : Nat
  failed : Bool
  stdout : String
  circuit_state : String
  sleeps : List Nat
deriving DecidableEq

/-- The `for attempt in range(1, retry_count + 1)` loop of
`resilient_ipmi.run_module`.  `remaining` counts the iterations the range has
left and `done` is the number of completed iterations, so the current
attempt number is `done + 1`; the comparisons against `retry_count` are the
source's own `attempt >= retry_count` checks.  `cstate` and `sleeps` carry
`result['circuit_state']` and the sleeps performed so far. -/
def ipmiLoop (outcome : Nat → IpmiOutcome) (retry_count retry_delay : Nat)
    (fallback_message : String) (fail_on_stderr : Bool) :
    Nat → Nat → String → List Nat → IpmiResult
  | 0, done, cstate, sleeps =>
    -- all retries exhausted: failed=False, stdout=fallback_message, exit_json
    ⟨done, false, fallback_message, cstate, sleeps⟩
  | remaining + 1, done, _cstate, sleeps =>
    let attempt := done + 1
    match outcome attempt with
    | .ok rc out err =>
      if rc ≠ 0 then
        -- non-zero return code: stdout := fallback, failed := False, loop on
        ipmiLoop outcome retry_count retry_delay fallback_message fail_on_stderr
          remaining attempt "closed" sleeps
      else if fail_on_stderr && has_real_errors err then
        ⟨attempt, true, out, "closed", sleeps⟩  -- fail_json
      else
        ⟨attempt, false, out, "closed", sleeps⟩  -- exit_json
    | .circuitOpen =>
      if retry_count ≤ attempt then
        ⟨attempt, true, fallback_message, "open", sleeps⟩  -- fail_json
      else
        ipmiLoop outcome retry_count retry_delay fallback_message fail_on_stderr
          remaining attempt "open" sleeps
    | .exc =>
      if retry_count ≤ attempt then
        ⟨attempt, true, fallback_message, _cstate, sleeps⟩  -- fail_json
      else
        ipmiLoop outcome retry_count retry_delay fallback_message fail_on_stderr
          remaining attempt _cstate (sleeps ++ [retry_delay * attempt])

/-- `resilient_ipmi.run_module` with the execution outcomes supplied as a
function from the attempt number; parameter defaults in the source are
`retry_count=3, retry_delay=2, fail_on_stderr=False,
fallback_message='COMMAND_FAILED'`. -/
def run_module (outcome : Nat → IpmiOutcome) (retry_count retry_delay : Nat)
    (fallback_message : String) (fail_on_stderr : Bool) : IpmiResult :=
  ipmiLoop outcome retry_count retry_delay fallback_message fail_on_stderr
    retry_count 0 "unknown" []

end ResilientIpmi

namespace ResilientCommand

/-- What the subprocess of one attempt does in `resilient_command`:
it completes with a return code, its `communicate` times out (the process is
then killed), or spawning/running it raises an exception. -/
inductive ProcOutcome
  | completed (rc : Int) (stdout stderr : String)
  | timedOut (stdout stderr : String)
  | raised (k : ErrKind)
deriving DecidableEq

/-- `resilient_command.run_with_timeout`: a timeout is caught, the process is
killed and the call returns return code 124; other exceptions propagate. -/
def run_with_timeout (p : ProcOutcome) : Except ErrKind (Int × String × String) :=
  match p with
  | .completed rc out err => .ok (rc, out, err)
  | .timedOut out err => .ok (124, out, err)
  | .raised k => .error k

/-- What one iteration of `main`'s retry loop observed: the breaker rejected
the call (`CircuitBreakerError`), the command ran and returned `rc`, or an
exception propagated. -/
inductive CmdEvent
  | rejected
  | ran (rc : Int)
  | excepted (k : ErrKind)
deriving DecidableEq

/-- The fields of `main`'s result dict that the claims talk about, plus the
sleeps performed, the per-iteration events, and the breaker's
(state, fail_counter) after each iteration. -/
structure CmdResult where
  attempts : Nat
  failed : Bool
  rc : Int
  stdout : String
  stderr : String
  circuit_state : String
  sleeps : List Nat
  events : List CmdEvent
  brkTrace : List (CircuitState × Nat)
deriving DecidableEq

/-- The `circuit_state` string `main` reports for a breaker state. -/
def stateName : CircuitState → String
  | .Closed => "closed"
  | .Open => "open"
  | .HalfOpen => "half-open"

/-- The `while attempts < max_retries` loop of `resilient_command.main`.
`remaining` mirrors the loop condition (`max_retries - attempts` at loop
entry); the inner `attempts >= max_retries` checks are the source's own
comparisons.  `r` is the accumulated result dict, whose `attempts` field is
the loop's `attempts` counter. -/
def cmdLoop (procs : Nat → ProcOutcome) (nows : Nat → Nat)
    (retry_delay max_retries : Nat) : Nat → Breaker → CmdResult → CmdResult
  | 0, _b, r =>
    -- "Should never reach here, but just in case": fail_json
    { r with failed := true }
  | remaining + 1, b, r =>
    let attempts := r.attempts + 1
    let co := b.call (nows attempts) (run_with_timeout (procs attempts))
    let r1 := { r with
      attempts := attempts,
      brkTrace := r.brkTrace ++ [(co.breaker.state, co.breaker.fail_counter)] }
    match co.res with
    | .circuitOpen =>
      -- except pybreaker.CircuitBreakerError: fail_json immediately
      { r1 with failed := true, circuit_state := "open",
                events := r1.events ++ [CmdEvent.rejected] }
    | .ok (rc, out, err) =>
      let r2 := { r1 with
        rc := rc, stdout := out, stderr := err,
        circuit_state := stateName co.breaker.state,
        events := r1.events ++ [CmdEvent.ran rc] }
      if rc = 0 then { r2 with failed := false }  -- exit_json
      else if max_retries ≤ attempts then { r2 with failed := true }  -- fail_json
      else
        cmdLoop procs nows retry_delay max_retries remaining co.breaker
          { r2 with sleeps := r2.sleeps ++ [retry_delay * 2 ^ (attempts - 1)] }
    | .err k =>
      let r2 := { r1 with events := r1.events ++ [CmdEvent.excepted k] }
      if max_retries ≤ attempts then { r2 with failed := true }  -- fail_json
      else
        cmdLoop procs nows retry_delay max_retries remaining co.breaker
          { r2 with sleeps := r2.sleeps ++ [retry_delay * 2 ^ (attempts - 1)] }

/-- The result dict as initialised at the top of `main`. -/
def initResult : CmdResult := ⟨0, false, -1, "", "", "closed", [], [], []⟩

/-- `resilient_command.main`: creates a fresh breaker
(`fail_max=circuit_threshold, reset_timeout=60,
exclude=[subprocess.TimeoutExpired]`), fails fast if it is already open
(it never is, being freshly created), and runs the retry loop with
`max_retries = retry_count + 1` ("Original try + retries").  Source defaults:
`retry_count=3, retry_delay=2, circuit_threshold=5`. -/
def main (procs : Nat → ProcOutcome) (nows : Nat → Nat)
    (retry_count retry_delay circuit_threshold : Nat) : CmdResult :=
  let breaker : Breaker :=
    ⟨circuit_threshold, 60,
     fun k => match k with | .timeoutExpired => true | _ => false,
     .Closed, 0, 0⟩
  match breaker.state with
  | .Open => { initResult with failed := true, circuit_state := "open" }
  | _ => cmdLoop procs nows retry_delay (retry_count + 1) (retry_count + 1) breaker initResult

end ResilientCommand

namespace IdracUtils

/-- Outcome of one call to the decorated function inside
`retry_with_backoff`'s wrapper: a value, a `pybreaker.CircuitBreakerError`,
or any other exception. -/
inductive TryOutcome (α : Type)
  | ok (v : α)
  | circuitOpen
  | exc
deriving DecidableEq

/-- How the wrapper's invocation ends: the function's value, the re-raised
`CircuitBreakerError`, or the re-raised final exception. -/
inductive RwbOutcome (α : Type)
  | ok (v : α)
  | circuitOpenErr
  | excErr
deriving DecidableEq

/-- One invocation of the wrapped function: final outcome, number of calls
made to the decorated function, and the sleeps performed. -/
structure RwbRun (α : Type) where
  result : RwbOutcome α
  calls : Nat
  sleeps : List Nat
deriving DecidableEq

/-- The `while attempts < max_tries` loop of `retry_with_backoff`'s wrapper
(identical in `idrac_utils.py` and `ilo_utils.py`).  `remaining` is
`max_tries - attempts`; the source's `attempts == max_tries` check after the
increment corresponds to `remaining = 0` here.  `callIdx` counts calls made
so far and `backoff` is the current delay, doubled after each sleep.  The
`0` case is the `return func(*args, **kwargs)` after the loop, reachable only
when `max_tries = 0`. -/
def rwbLoop (outcomes : Nat → TryOutcome α) : Nat → Nat → Nat → List Nat → RwbRun α
  | 0, callIdx, _backoff, sleeps =>
    match outcomes (callIdx + 1) with
    | .ok v => ⟨.ok v, callIdx + 1, sleeps⟩
    | .circuitOpen => ⟨.circuitOpenErr, callIdx + 1, sleeps⟩
    | .exc => ⟨.excErr, callIdx + 1, sleeps⟩
  | remaining + 1, callIdx, backoff, sleeps =>
    match outcomes (callIdx + 1) with
    | .ok v => ⟨.ok v, callIdx + 1, sleeps⟩
    | .circuitOpen =>
      -- except pybreaker.CircuitBreakerError: don't retry, re-raise
      ⟨.circuitOpenErr, callIdx + 1, sleeps⟩
    | .exc =>
      if remaining = 0 then ⟨.excErr, callIdx + 1, sleeps⟩  -- attempts == max_tries: raise
      else rwbLoop outcomes remaining (callIdx + 1) (backoff * 2) (sleeps ++ [backoff])

/-- The `retry_with_backoff(max_tries, initial_delay)` decorator applied to a
function whose per-call outcomes are given; source defaults are
`max_tries=3, initial_delay=1`. -/
def retry_with_backoff (outcomes : Nat → TryOutcome α) (max_tries initial_delay : Nat) :
    RwbRun α :=
  rwbLoop outcomes max_tries 0 initial_delay []

end IdracUtils

/-! ## Helper lemmas -/

/-- Every entry of a breaker trace is the closed state with counter 0. -/
def allClosedZero (l : List (CircuitState × Nat)) : Bool :=
  l.all fun p => decide (p = (CircuitState.Closed, 0))

/-- Every event is the command running and returning 124. -/
def allRan124 (l : List ResilientCommand.CmdEvent) : Bool :=
  l.all fun e => decide (e = ResilientCommand.CmdEvent.ran 124)

lemma allClosedZero_iff (l : List (CircuitState × Nat)) :
    allClosedZero l = true ↔ ∀ p ∈ l, p = (CircuitState.Closed, 0) := by
  simp [allClosedZero, List.all_eq_true]

lemma allRan124_iff (l : List ResilientCommand.CmdEvent) :
    allRan124 l = true ↔ ∀ e ∈ l, e = ResilientCommand.CmdEvent.ran 124 := by
  simp [allRan124, List.all_eq_true]

/-- If every call raises `CircuitBreakerError`, the ipmi loop keeps retrying
(without sleeping) until `attempt >= retry_count` and only then fails. -/
lemma ipmiLoop_all_circuitOpen
    (outcome : Nat → ResilientIpmi.IpmiOutcome) (rcnt dly : Nat) (fb : String) (fos : Bool)
    (h : ∀ a, outcome a = .circuitOpen) :
    ∀ remaining done, ∀ cst : String, ∀ sl : List Nat, 1 ≤ remaining → done + remaining = rcnt →
      ResilientIpmi.ipmiLoop outcome rcnt dly fb fos remaining done cst sl
        = ⟨rcnt, true, fb, "open", sl⟩ := by
  intro remaining
  induction remaining with
  | zero => intro done cst sl h1 _; exact absurd h1 (by omega)
  | succ r ih =>
    intro done cst sl _ h2
    simp only [ResilientIpmi.ipmiLoop, h (done + 1)]
    by_cases hc : rcnt ≤ done + 1
    · rw [if_pos hc]
      have hd : done + 1 = rcnt := by omega
      rw [hd]
    · rw [if_neg hc]
      exact ih (done + 1) "open" sl (by omega) (by omega)

/-- If every attempt up to `done + remaining` completes with a non-zero
return code, the ipmi loop runs to exhaustion and reports the fallback with
`failed = False`. -/
lemma ipmiLoop_all_nonzero
    (outcome : Nat → ResilientIpmi.IpmiOutcome) (rcnt dly : Nat) (fb : String) (fos : Bool) :
    ∀ remaining done, ∀ cst : String, ∀ sl : List Nat,
      (∀ a, done < a → a ≤ done + remaining →
        ∃ rc o e, outcome a = .ok rc o e ∧ rc ≠ 0) →
      ResilientIpmi.ipmiLoop outcome rcnt dly fb fos remaining done cst sl
        = ⟨done + remaining, false, fb, if remaining = 0 then cst else "closed", sl⟩ := by
  intro remaining
  induction remaining with
  | zero => intro done cst sl _; simp [ResilientIpmi.ipmiLoop]
  | succ r ih =>
    intro done cst sl hall
    obtain ⟨rc, o, e, hok, hne⟩ := hall (done + 1) (by omega) (by omega)
    simp only [ResilientIpmi.ipmiLoop, hok]
    rw [if_pos hne]
    rw [ih (done + 1) "closed" sl (fun a ha hb => hall a (by omega) (by omega))]
    have hd : done + 1 + r = done + (r + 1) := by omega
    rw [hd, ite_self, if_neg (Nat.succ_ne_zero r)]

/-- If no call ever raises a generic exception, the ipmi loop performs no
sleeps beyond those already accumulated. -/
lemma ipmiLoop_sleeps_no_exc
    (outcome : Nat → ResilientIpmi.IpmiOutcome) (rcnt dly : Nat) (fb : String) (fos : Bool)
    (h : ∀ a, outcome a ≠ .exc) :
    ∀ remaining done, ∀ cst : String, ∀ sl : List Nat,
      (ResilientIpmi.ipmiLoop outcome rcnt dly fb fos remaining done cst sl).sleeps = sl := by
  intro remaining
  induction remaining with
  | zero => intro done cst sl; rfl
  | succ r ih =>
    intro done cst sl
    rcases ho : outcome (done + 1) with ⟨rc, o, e⟩ | _ | _
    · simp only [ResilientIpmi.ipmiLoop, ho]
      split
      · exact ih (done + 1) "closed" sl
      · split <;> rfl
    · simp only [ResilientIpmi.ipmiLoop, ho]
      split
      · rfl
      · exact ih (done + 1) "open" sl
    · exact absurd ho (h (done + 1))

/-- The ipmi loop performs at most `remaining` more iterations. -/
lemma ipmiLoop_attempts_le
    (outcome : Nat → ResilientIpmi.IpmiOutcome) (rcnt dly : Nat) (fb : String) (fos : Bool) :
    ∀ remaining done, ∀ cst : String, ∀ sl : List Nat,
      (ResilientIpmi.ipmiLoop outcome rcnt dly fb fos remaining done cst sl).attempts
        ≤ done + remaining := by
  intro remaining
  induction remaining with
  | zero => intro done cst sl; simp [ResilientIpmi.ipmiLoop]
  | succ r ih =>
    intro done cst sl
    rcases ho : outcome (done + 1) with ⟨rc, o, e⟩ | _ | _ <;>
      simp only [ResilientIpmi.ipmiLoop, ho]
    · split
      · exact le_trans (ih (done + 1) "closed" sl) (by omega)
      · split <;> simp
    · split
      · simp
      · exact le_trans (ih (done + 1) "open" sl) (by omega)
    · split
      · simp
      · exact le_trans (ih (done + 1) cst (sl ++ [dly * (done + 1)])) (by omega)

/-- A call through a closed breaker whose operation succeeds: the operation
is invoked, the result is its value, and the breaker closes with a reset
counter. -/
lemma Breaker_call_closed_ok (b : Breaker) (now : Nat) (v : α)
    (hb : b.state = .Closed) :
    b.call now (Except.ok v : Except ErrKind α) = ⟨.ok v, b.onSuccess, true⟩ := by
  unfold Breaker.call
  rw [hb]
  rfl

/-- If the command of every attempt runs to completion (no exception reaches
the breaker), every breaker state recorded in the trace is closed with
failure counter 0. -/
lemma cmdLoop_allOk_brkTrace
    (procs : Nat → ResilientCommand.ProcOutcome) (nows : Nat → Nat) (dly mr : Nat)
    (h : ∀ a, ∃ v, ResilientCommand.run_with_timeout (procs a) = Except.ok v) :
    ∀ remaining, ∀ b : Breaker, ∀ r : ResilientCommand.CmdResult, b.state = .Closed →
      (∀ p ∈ r.brkTrace, p = (CircuitState.Closed, 0)) →
      ∀ p ∈ (ResilientCommand.cmdLoop procs nows dly mr remaining b r).brkTrace,
        p = (CircuitState.Closed, 0) := by
  intro remaining
  induction remaining with
  | zero => intro b r _ hr; simpa [ResilientCommand.cmdLoop] using hr
  | succ n ih =>
    intro b r hb hr
    obtain ⟨⟨rc, out, err⟩, hv⟩ := h (r.attempts + 1)
    have hcall : b.call (nows (r.attempts + 1))
        (ResilientCommand.run_with_timeout (procs (r.attempts + 1)))
        = ⟨.ok (rc, out, err), b.onSuccess, true⟩ := by
      rw [hv]; exact Breaker_call_closed_ok b _ _ hb
    have htr : ∀ p ∈ r.brkTrace ++ [(b.onSuccess.state, b.onSuccess.fail_counter)],
        p = (CircuitState.Closed, 0) := by
      intro p hp
      rcases List.mem_append.mp hp with hp1 | hp2
      · exact hr p hp1
      · simp only [List.mem_singleton] at hp2
        simpa [Breaker.onSuccess] using hp2
    simp only [ResilientCommand.cmdLoop, hcall]
    split
    · exact htr
    · split
      · exact htr
      · exact ih b.onSuccess _ (by simp [Breaker.onSuccess]) htr

/-- If every attempt times out, every event recorded by the loop is the
command running and returning the timeout return code 124. -/
lemma cmdLoop_allTimeout_events
    (procs : Nat → ResilientCommand.ProcOutcome) (nows : Nat → Nat) (dly mr : Nat)
    (h : ∀ a, ∃ o e, procs a = ResilientCommand.ProcOutcome.timedOut o e) :
    ∀ remaining, ∀ b : Breaker, ∀ r : ResilientCommand.CmdResult, b.state = .Closed →
      (∀ ev ∈ r.events, ev = ResilientCommand.CmdEvent.ran 124) →
      ∀ ev ∈ (ResilientCommand.cmdLoop procs nows dly mr remaining b r).events,
        ev = ResilientCommand.CmdEvent.ran 124 := by
  intro remaining
  induction remaining with
  | zero => intro b r _ hr; simpa [ResilientCommand.cmdLoop] using hr
  | succ n ih =>
    intro b r hb hr
    obtain ⟨o, e, ho⟩ := h (r.attempts + 1)
    have hv : ResilientCommand.run_with_timeout (procs (r.attempts + 1))
        = Except.ok ((124 : Int), o, e) := by
      rw [ho]; rfl
    have hcall : b.call (nows (r.attempts + 1))
        (ResilientCommand.run_with_timeout (procs (r.attempts + 1)))
        = ⟨.ok (124, o, e), b.onSuccess, true⟩ := by
      rw [hv]; exact Breaker_call_closed_ok b _ _ hb
    have htr : ∀ ev ∈ r.events ++ [ResilientCommand.CmdEvent.ran 124],
        ev = ResilientCommand.CmdEvent.ran 124 := by
      intro ev hev
      rcases List.mem_append.mp hev with h1 | h2
      · exact hr ev h1
      · simpa using h2
    simp only [ResilientCommand.cmdLoop, hcall]
    split
    · exact htr
    · split
      · exact htr
      · exact ih b.onSuccess _ (by simp [Breaker.onSuccess]) htr

/-- The command loop records at most `remaining` further events (one per
iteration of the while loop). -/
lemma cmdLoop_events_le
    (procs : Nat → ResilientCommand.ProcOutcome) (nows : Nat → Nat) (dly mr : Nat) :
    ∀ remaining, ∀ b : Breaker, ∀ r : ResilientCommand.CmdResult,
      (ResilientCommand.cmdLoop procs nows dly mr remaining b r).events.length
        ≤ r.events.length + remaining := by
  intro remaining
  induction remaining with
  | zero => intro b r; simp [ResilientCommand.cmdLoop]
  | succ n ih =>
    intro b r
    simp only [ResilientCommand.cmdLoop]
    split
    · simp
    · split
      · simp
      · split
        · simp
        · refine le_trans (ih _ _) ?_
          simp
          omega
    · split
      · simp
      · refine le_trans (ih _ _) ?_
        simp
        omega

/-- With at least one loop iteration left, the decorated function is called
at most `remaining` more times. -/
lemma rwbLoop_calls_le {α : Type} (outcomes : Nat → IdracUtils.TryOutcome α) :
    ∀ remaining, ∀ callIdx backoff : Nat, ∀ sl : List Nat, 1 ≤ remaining →
      (IdracUtils.rwbLoop outcomes remaining callIdx backoff sl).calls
        ≤ callIdx + remaining := by
  intro remaining
  induction remaining with
  | zero => intro callIdx backoff sl h1; exact absurd h1 (by omega)
  | succ n ih =>
    intro callIdx backoff sl _
    rcases ho : outcomes (callIdx + 1) with ⟨v⟩ | _ | _ <;>
      simp only [IdracUtils.rwbLoop, ho]
    · simp
    · simp
    · split
      · simp
      · next hne =>
        exact le_trans (ih (callIdx + 1) (backoff * 2) (sl ++ [backoff])
          (by omega)) (by omega)

/-- A non-excluded failure through a closed breaker increments the counter
and opens the circuit exactly when the threshold is reached. -/
lemma Breaker_call_closed_err {α : Type} (b : Breaker) (now : Nat) (k : ErrKind)
    (hb : b.state = .Closed) (hk : b.excluded k = false) :
    (b.call now (Except.error k : Except ErrKind α)).breaker
      = if b.fail_max ≤ b.fail_counter + 1 then
          { b with state := .Open, fail_counter := b.fail_counter + 1, opened_at := now }
        else { b with fail_counter := b.fail_counter + 1 } := by
  unfold Breaker.call Breaker.exec Breaker.onFailure
  rw [hb]
  simp [hk]

/-- A sequence of non-excluded failures on a closed breaker, too short to
reach the threshold: the breaker stays closed and the counter counts them. -/
lemma applyFailures_closed_lt :
    ∀ (ks : List ErrKind) (b : Breaker) (now : Nat),
      b.state = .Closed → (∀ k ∈ ks, b.excluded k = false) →
      b.fail_counter + ks.length < b.fail_max →
      (applyFailures b now ks).state = .Closed
        ∧ (applyFailures b now ks).fail_counter = b.fail_counter + ks.length := by
  intro ks
  induction ks with
  | nil => intro b now hb _ _; exact ⟨hb, by simp [applyFailures]⟩
  | cons k rest ih =>
    intro b now hb hex hlt
    have hk : b.excluded k = false := hex k (by simp)
    simp only [List.length_cons] at hlt
    have hcond : ¬ (b.fail_max ≤ b.fail_counter + 1) := by omega
    have hstep : (b.call now (Except.error k : Except ErrKind Unit)).breaker
        = { b with fail_counter := b.fail_counter + 1 } := by
      rw [Breaker_call_closed_err b now k hb hk, if_neg hcond]
    have happ : applyFailures b now (k :: rest)
        = applyFailures { b with fail_counter := b.fail_counter + 1 } now rest := by
      simp [applyFailures, hstep]
    rw [happ]
    have hres := ih { b with fail_counter := b.fail_counter + 1 } now (by simpa using hb)
      (fun k2 hk2 => hex k2 (by simp [hk2]))
      (by simp; omega)
    refine ⟨hres.1, ?_⟩
    rw [hres.2]
    simp
    omega

/-- A sequence of non-excluded failures on a closed breaker that exactly
reaches the threshold: the breaker ends open. -/
lemma applyFailures_opens :
    ∀ (ks : List ErrKind) (b : Breaker) (now : Nat),
      ks ≠ [] → b.state = .Closed → (∀ k ∈ ks, b.excluded k = false) →
      b.fail_counter + ks.length = b.fail_max →
      (applyFailures b now ks).state = .Open := by
  intro ks
  induction ks with
  | nil => intro b now hne; exact absurd rfl hne
  | cons k rest ih =>
    intro b now _ hb hex heq
    have hk : b.excluded k = false := hex k (by simp)
    simp only [List.length_cons] at heq
    cases rest with
    | nil =>
      have hcond : b.fail_max ≤ b.fail_counter + 1 := by simp at heq; omega
      have hstep : (b.call now (Except.error k : Except ErrKind Unit)).breaker
          = { b with state := .Open, fail_counter := b.fail_counter + 1, opened_at := now } := by
        rw [Breaker_call_closed_err b now k hb hk, if_pos hcond]
      simp [applyFailures, hstep]
    | cons k2 rest2 =>
      have hcond : ¬ (b.fail_max ≤ b.fail_counter + 1) := by simp at heq; omega
      have hstep : (b.call now (Except.error k : Except ErrKind Unit)).breaker
          = { b with fail_counter := b.fail_counter + 1 } := by
        rw [Breaker_call_closed_err b now k hb hk, if_neg hcond]
      have happ : applyFailures b now (k :: k2 :: rest2)
          = applyFailures { b with fail_counter := b.fail_counter + 1 } now (k2 :: rest2) := by
        simp [applyFailures, hstep]
      rw [happ]
      exact ih { b with fail_counter := b.fail_counter + 1 } now (by simp)
        (by simpa using hb)
        (fun k3 hk3 => hex k3 (by simp at hk3 ⊢; tauto))
        (by simp at heq ⊢; omega)

/-- The wrapped operation is invoked by `Breaker.exec` whatever its outcome. -/
lemma Breaker_exec_invoked {α : Type} (b : Breaker) (now : Nat) (op : Except ErrKind α) :
    (b.exec now op).invoked = true := by
  rcases op with k | v
  · simp only [Breaker.exec]
    split <;> rfl
  · rfl

/-- A call through a breaker that is not Open always invokes the wrapped
operation. -/
lemma Breaker_call_invoked_of_not_open {α : Type} (b : Breaker) (now : Nat)
    (op : Except ErrKind α) (hb : b.state ≠ .Open) :
    (b.call now op).invoked = true := by
  unfold Breaker.call
  rcases hs : b.state with _ | _ | _
  · exact Breaker_exec_invoked b now op
  · exact absurd hs hb
  · exact Breaker_exec_invoked b now op

/-! ## The claims -/

/-- Claim C1, counterexample.  The claim says that for every adapter a
`CircuitBreakerError` stops the invocation immediately, with no further
attempts.  In `resilient_ipmi.run_module` this is false: with `retry_count=3`
and every call raising `CircuitBreakerError` (attempt 1 included), the loop
performs all 3 iterations before reporting the circuit-open failure, so the
final attempt count is 3, not 1. -/
theorem C1_counterexample :
    (ResilientIpmi.run_module (fun _ => .circuitOpen) 3 2 "COMMAND_FAILED" false).attempts = 3
    ∧ (3 : Nat) ≠ 1 := by decide

/-- Claim C1, amended.  On `CircuitBreakerError`, `resilient_command.main`
and the `retry_with_backoff` decorator stop immediately with a circuit-open
failure and no further attempts; `resilient_ipmi.run_module` instead keeps
looping (without sleeping) and reports the circuit-open failure
(`failed=True`, `circuit_state="open"`, fallback stdout) only once
`attempt >= retry_count`. -/
theorem C1_circuit_open_behavior
    (procs : Nat → ResilientCommand.ProcOutcome) (nows : Nat → Nat)
    (dly mr remaining : Nat) (b : Breaker) (r : ResilientCommand.CmdResult)
    (outcomes : Nat → IdracUtils.TryOutcome Unit) (rem2 idx bo : Nat) (sl2 : List Nat)
    (outc : Nat → ResilientIpmi.IpmiOutcome) (rcnt dly2 : Nat) (fb : String) (fos : Bool)
    (hcmd : (b.call (nows (r.attempts + 1))
      (ResilientCommand.run_with_timeout (procs (r.attempts + 1)))).res = .circuitOpen)
    (hrwb : outcomes (idx + 1) = .circuitOpen)
    (hip : ∀ a, outc a = .circuitOpen) (hrc : 1 ≤ rcnt) :
    ((ResilientCommand.cmdLoop procs nows dly mr (remaining + 1) b r).failed = true
      ∧ (ResilientCommand.cmdLoop procs nows dly mr (remaining + 1) b r).attempts = r.attempts + 1
      ∧ (ResilientCommand.cmdLoop procs nows dly mr (remaining + 1) b r).circuit_state = "open"
      ∧ (ResilientCommand.cmdLoop procs nows dly mr (remaining + 1) b r).events
          = r.events ++ [ResilientCommand.CmdEvent.rejected]
      ∧ (ResilientCommand.cmdLoop procs nows dly mr (remaining + 1) b r).sleeps = r.sleeps)
    ∧ IdracUtils.rwbLoop outcomes (rem2 + 1) idx bo sl2
        = ⟨IdracUtils.RwbOutcome.circuitOpenErr, idx + 1, sl2⟩
    ∧ ResilientIpmi.run_module outc rcnt dly2 fb fos = ⟨rcnt, true, fb, "open", []⟩ := by
  refine ⟨?_, ?_, ?_⟩
  · simp only [ResilientCommand.cmdLoop, hcmd]
    simp
  · simp only [IdracUtils.rwbLoop, hrwb]
  · simp only [ResilientIpmi.run_module]
    exact ipmiLoop_all_circuitOpen outc rcnt dly2 fb fos hip rcnt 0 "unknown" [] hrc (by omega)

/-- Claim C1, witness for the amended theorem at concrete inputs. -/
theorem C1_circuit_open_behavior_witness :
    ((ResilientCommand.cmdLoop (fun _ => .completed 0 "" "") (fun _ => 0) 2 4 1
        ⟨3, 60, fun _ => false, .Open, 3, 0⟩ ResilientCommand.initResult).failed = true
      ∧ (ResilientCommand.cmdLoop (fun _ => .completed 0 "" "") (fun _ => 0) 2 4 1
        ⟨3, 60, fun _ => false, .Open, 3, 0⟩ ResilientCommand.initResult).attempts = 1
      ∧ (ResilientCommand.cmdLoop (fun _ => .completed 0 "" "") (fun _ => 0) 2 4 1
        ⟨3, 60, fun _ => false, .Open, 3, 0⟩ ResilientCommand.initResult).circuit_state = "open"
      ∧ (ResilientCommand.cmdLoop (fun _ => .completed 0 "" "") (fun _ => 0) 2 4 1
        ⟨3, 60, fun _ => false, .Open, 3, 0⟩ ResilientCommand.initResult).events
          = [ResilientCommand.CmdEvent.rejected]
      ∧ (ResilientCommand.cmdLoop (fun _ => .completed 0 "" "") (fun _ => 0) 2 4 1
        ⟨3, 60, fun _ => false, .Open, 3, 0⟩ ResilientCommand.initResult).sleeps = [])
    ∧ IdracUtils.rwbLoop (fun _ => (.circuitOpen : IdracUtils.TryOutcome Unit)) 1 0 1 []
        = ⟨IdracUtils.RwbOutcome.circuitOpenErr, 1, []⟩
    ∧ ResilientIpmi.run_module (fun _ => .circuitOpen) 3 2 "COMMAND_FAILED" false
        = ⟨3, true, "COMMAND_FAILED", "open", []⟩ :=
  C1_circuit_open_behavior (fun _ => .completed 0 "" "") (fun _ => 0) 2 4 0
    ⟨3, 60, fun _ => false, .Open, 3, 0⟩ ResilientCommand.initResult
    (fun _ => .circuitOpen) 0 0 1 []
    (fun _ => .circuitOpen) 3 2 "COMMAND_FAILED" false
    (by decide) rfl (fun _ => rfl) (by decide)

/-- Claim C2 (code-bug evidence).  The claim says every retry call site
sleeps `initial_delay * 2^(attempt-1)`.  `resilient_command.main` and the
`retry_with_backoff` decorator do; `resilient_ipmi.run_module` instead
sleeps `retry_delay * attempt` (linear), even though the source line carries
the comment "Exponential backoff": with `retry_delay=2, retry_count=4` and
every attempt raising, it sleeps 2, 4, 6 where the claimed formula gives
2, 4, 8. -/
theorem C2_backoff_evidence :
    (ResilientIpmi.run_module (fun _ => .exc) 4 2 "COMMAND_FAILED" false).sleeps = [2, 4, 6]
    ∧ [2, 4, 6] ≠ [2 * 2 ^ (1 - 1), 2 * 2 ^ (2 - 1), 2 * 2 ^ (3 - 1)]
    ∧ (ResilientCommand.main (fun _ => .completed 1 "" "") (fun _ => 0) 3 2 5).sleeps
        = [2 * 2 ^ (1 - 1), 2 * 2 ^ (2 - 1), 2 * 2 ^ (3 - 1)]
    ∧ (IdracUtils.retry_with_backoff (fun _ => (.exc : IdracUtils.TryOutcome Unit)) 4 1).sleeps
        = [1 * 2 ^ (1 - 1), 1 * 2 ^ (2 - 1), 1 * 2 ^ (3 - 1)] := by decide

/-- Claim C3: `resilient_ipmi` with `retry_count=3` and
`fallback_message="COMMAND_FAILED"`, where every attempt completes with a
non-zero return code, ends with `failed=False`, `stdout="COMMAND_FAILED"`,
`attempts=3`. -/
theorem C3_ipmi_fallback_on_nonzero
    (outcome : Nat → ResilientIpmi.IpmiOutcome) (fos : Bool)
    (rc1 rc2 rc3 : Int) (o1 o2 o3 e1 e2 e3 : String)
    (h1 : outcome 1 = .ok rc1 o1 e1) (n1 : rc1 ≠ 0)
    (h2 : outcome 2 = .ok rc2 o2 e2) (n2 : rc2 ≠ 0)
    (h3 : outcome 3 = .ok rc3 o3 e3) (n3 : rc3 ≠ 0) :
    ResilientIpmi.run_module outcome 3 2 "COMMAND_FAILED" fos
      = ⟨3, false, "COMMAND_FAILED", "closed", []⟩ := by
  simp only [ResilientIpmi.run_module]
  rw [ipmiLoop_all_nonzero outcome 3 2 "COMMAND_FAILED" fos 3 0 "unknown" [] ?_]
  · norm_num
  · intro a ha hb
    interval_cases a
    · exact ⟨rc1, o1, e1, h1, n1⟩
    · exact ⟨rc2, o2, e2, h2, n2⟩
    · exact ⟨rc3, o3, e3, h3, n3⟩

/-- Claim C3, witness at a concrete outcome. -/
theorem C3_ipmi_fallback_on_nonzero_witness :
    ResilientIpmi.run_module (fun _ => .ok 1 "out" "err") 3 2 "COMMAND_FAILED" false
      = ⟨3, false, "COMMAND_FAILED", "closed", []⟩ :=
  C3_ipmi_fallback_on_nonzero (fun _ => .ok 1 "out" "err") false 1 1 1 "out" "out" "out"
    "err" "err" "err" rfl (by decide) rfl (by decide) rfl (by decide)

/-- Claim C4, counterexample.  The claim says `resilient_command` with its
default `retry_count=3` invokes the command at most 3 times.  In fact
`main` sets `max_retries = retry_count + 1` ("Original try + retries"), so a
persistently failing command is run 4 times. -/
theorem C4_counterexample :
    (ResilientCommand.main (fun _ => .completed 1 "" "") (fun _ => 0) 3 2 5).events
      = [.ran 1, .ran 1, .ran 1, .ran 1]
    ∧ (ResilientCommand.main (fun _ => .completed 1 "" "") (fun _ => 0) 3 2 5).attempts = 4
    ∧ ¬ ((4 : Nat) ≤ 3) := by decide

/-- Claim C4, amended.  The retry layer performs a bounded number of
attempts: `resilient_command.main` at most `retry_count + 1` (4 by default),
`resilient_ipmi.run_module` at most `retry_count` (3 by default), and
`retry_with_backoff` at most `max_tries` (3 by default) calls. -/
theorem C4_attempt_bounds
    (procs : Nat → ResilientCommand.ProcOutcome) (nows : Nat → Nat) (rcnt dly th : Nat)
    (outc : Nat → ResilientIpmi.IpmiOutcome) (rcnt2 dly2 : Nat) (fb : String) (fos : Bool)
    (outcomes : Nat → IdracUtils.TryOutcome Unit) (mt idly : Nat) (hmt : 1 ≤ mt) :
    (ResilientCommand.main procs nows rcnt dly th).events.length ≤ rcnt + 1
    ∧ (ResilientIpmi.run_module outc rcnt2 dly2 fb fos).attempts ≤ rcnt2
    ∧ (IdracUtils.retry_with_backoff outcomes mt idly).calls ≤ mt := by
  refine ⟨?_, ?_, ?_⟩
  · simp only [ResilientCommand.main]
    refine le_trans (cmdLoop_events_le _ _ _ _ _ _ _) ?_
    simp [ResilientCommand.initResult]
  · simp only [ResilientIpmi.run_module]
    simpa using ipmiLoop_attempts_le outc rcnt2 dly2 fb fos rcnt2 0 "unknown" []
  · simp only [IdracUtils.retry_with_backoff]
    simpa using rwbLoop_calls_le outcomes mt 0 idly [] hmt

/-- Claim C4, witness for the amended bounds at concrete inputs. -/
theorem C4_attempt_bounds_witness :
    (ResilientCommand.main (fun _ => .completed 1 "" "") (fun _ => 0) 3 2 5).events.length ≤ 4
    ∧ (ResilientIpmi.run_module (fun _ => .exc) 3 2 "COMMAND_FAILED" false).attempts ≤ 3
    ∧ (IdracUtils.retry_with_backoff (fun _ => (.exc : IdracUtils.TryOutcome Unit)) 3 1).calls
        ≤ 3 :=
  C4_attempt_bounds (fun _ => .completed 1 "" "") (fun _ => 0) 3 2 5
    (fun _ => .exc) 3 2 "COMMAND_FAILED" false
    (fun _ => .exc) 3 1 (by decide)

/-- Claim C5: starting from Closed, exactly `fail_max` consecutive
non-excluded failures open the breaker, and not before (any shorter sequence
leaves it Closed with the counter equal to the number of failures);
calls through a breaker whose state is not Open invoke the wrapped
operation; the module-level breakers are configured with `fail_max=5`
(idrac_utils / ilo_utils) and `fail_max=3` (resilient_ipmi), both starting
Closed. -/
theorem C5_breaker_threshold
    (b : Breaker) (now : Nat) (ks : List ErrKind)
    (op : Except ErrKind Unit) (b2 : Breaker) (n2 : Nat)
    (hb : b.state = .Closed) (hc : b.fail_counter = 0)
    (hex : ∀ k ∈ ks, b.excluded k = false)
    (hb2 : b2.state ≠ .Open) :
    (ks.length < b.fail_max →
      (applyFailures b now ks).state = .Closed
        ∧ (applyFailures b now ks).fail_counter = ks.length)
    ∧ (ks.length = b.fail_max → 1 ≤ b.fail_max →
      (applyFailures b now ks).state = .Open)
    ∧ (b2.call n2 op).invoked = true
    ∧ IdracUtils.breaker.fail_max = 5 ∧ IdracUtils.breaker.state = .Closed
    ∧ ResilientIpmi.ipmi_breaker.fail_max = 3
    ∧ ResilientIpmi.ipmi_breaker.state = .Closed := by
  refine ⟨?_, ?_, Breaker_call_invoked_of_not_open b2 n2 op hb2, rfl, rfl, rfl, rfl⟩
  · intro hlt
    have hres := applyFailures_closed_lt ks b now hb hex (by omega)
    exact ⟨hres.1, by rw [hres.2, hc, Nat.zero_add]⟩
  · intro heq hpos
    have hne : ks ≠ [] := by
      intro hnil
      rw [hnil] at heq
      simp at heq
      omega
    exact applyFailures_opens ks b now hne hb hex (by omega)

/-- Claim C5, witness: driving the idrac breaker from Closed through 5
consecutive non-excluded failures opens it, 4 leave it Closed with counter
4, and a call through the (closed) ipmi breaker invokes the operation. -/
theorem C5_breaker_threshold_witness :
    ((List.replicate 4 ErrKind.other).length < IdracUtils.breaker.fail_max →
      (applyFailures IdracUtils.breaker 0 (List.replicate 4 ErrKind.other)).state = .Closed
        ∧ (applyFailures IdracUtils.breaker 0 (List.replicate 4 ErrKind.other)).fail_counter
            = (List.replicate 4 ErrKind.other).length)
    ∧ ((List.replicate 4 ErrKind.other).length = IdracUtils.breaker.fail_max →
        1 ≤ IdracUtils.breaker.fail_max →
      (applyFailures IdracUtils.breaker 0 (List.replicate 4 ErrKind.other)).state = .Open)
    ∧ (ResilientIpmi.ipmi_breaker.call 0 (Except.ok ())).invoked = true
    ∧ IdracUtils.breaker.fail_max = 5 ∧ IdracUtils.breaker.state = .Closed
    ∧ ResilientIpmi.ipmi_breaker.fail_max = 3
    ∧ ResilientIpmi.ipmi_breaker.state = .Closed :=
  C5_breaker_threshold IdracUtils.breaker 0 (List.replicate 4 ErrKind.other)
    (Except.ok ()) ResilientIpmi.ipmi_breaker 0 rfl rfl (by decide) (by decide)

/-- Claim C6: on the spec's test vector, the cleaned stderr contains
"real error here" and no "Cipher Suites", `has_real_errors` is true on it,
and `has_real_errors` is false on the purely benign line. -/
theorem C6_stderr_cleaning :
    hasSub "real error here".data (clean_ipmi_stderr sampleStderr).data = true
    ∧ hasSub "Cipher Suites".data (clean_ipmi_stderr sampleStderr).data = false
    ∧ has_real_errors sampleStderr = true
    ∧ has_real_errors "Unable to Get Channel Cipher Suites\n" = false := by decide

/-- Claim C7: in `resilient_command`, a timed-out attempt is converted by
`run_with_timeout` into a normal completion with return code 124, so the
breaker records a success: over an execution where every attempt times out,
every recorded breaker state is Closed with failure counter 0, and every
event is the command running and returning 124. -/
theorem C7_timeouts_do_not_trip_breaker
    (procs : Nat → ResilientCommand.ProcOutcome) (nows : Nat → Nat) (rcnt dly th : Nat)
    (ht : ∀ a, ∃ o e, procs a = ResilientCommand.ProcOutcome.timedOut o e) :
    allClosedZero (ResilientCommand.main procs nows rcnt dly th).brkTrace = true
    ∧ allRan124 (ResilientCommand.main procs nows rcnt dly th).events = true := by
  have hok : ∀ a, ∃ v, ResilientCommand.run_with_timeout (procs a) = Except.ok v := by
    intro a
    obtain ⟨o, e, he⟩ := ht a
    exact ⟨(124, o, e), by rw [he]; rfl⟩
  constructor
  · rw [allClosedZero_iff]
    simp only [ResilientCommand.main]
    exact cmdLoop_allOk_brkTrace procs nows dly (rcnt + 1) hok (rcnt + 1) _ _ rfl
      (by simp [ResilientCommand.initResult])
  · rw [allRan124_iff]
    simp only [ResilientCommand.main]
    exact cmdLoop_allTimeout_events procs nows dly (rcnt + 1) ht (rcnt + 1) _ _ rfl
      (by simp [ResilientCommand.initResult])

/-- Claim C7, witness at a concrete all-timeout run. -/
theorem C7_timeouts_do_not_trip_breaker_witness :
    allClosedZero (ResilientCommand.main (fun _ => .timedOut "" "") (fun _ => 0) 3 2 5).brkTrace
      = true
    ∧ allRan124 (ResilientCommand.main (fun _ => .timedOut "" "") (fun _ => 0) 3 2 5).events
      = true :=
  C7_timeouts_do_not_trip_breaker (fun _ => .timedOut "" "") (fun _ => 0) 3 2 5
    (fun _ => ⟨"", "", rfl⟩)

/-- Claim C8: in `resilient_command` a command that starts and completes
(including a timeout, mapped to return code 124) is a breaker success: if no
attempt raises, every recorded breaker state is Closed with counter 0 — a
persistently non-zero return code never opens the breaker — while an
attempt that does raise a non-excluded exception increments the counter. -/
theorem C8_nonzero_rc_never_opens_breaker
    (procs : Nat → ResilientCommand.ProcOutcome) (nows : Nat → Nat) (rcnt dly th : Nat)
    (b2 : Breaker) (n2 : Nat) (k2 : ErrKind)
    (hnr : ∀ a k, procs a ≠ ResilientCommand.ProcOutcome.raised k)
    (hb2 : b2.state = .Closed) (hk2 : b2.excluded k2 = false) :
    allClosedZero (ResilientCommand.main procs nows rcnt dly th).brkTrace = true
    ∧ (b2.call n2 (ResilientCommand.run_with_timeout
        (ResilientCommand.ProcOutcome.raised k2))).breaker.fail_counter
      = b2.fail_counter + 1 := by
  have hok : ∀ a, ∃ v, ResilientCommand.run_with_timeout (procs a) = Except.ok v := by
    intro a
    rcases hp : procs a with ⟨rc, o, e⟩ | ⟨o, e⟩ | k
    · exact ⟨(rc, o, e), rfl⟩
    · exact ⟨(124, o, e), rfl⟩
    · exact absurd hp (hnr a k)
  constructor
  · rw [allClosedZero_iff]
    simp only [ResilientCommand.main]
    exact cmdLoop_allOk_brkTrace procs nows dly (rcnt + 1) hok (rcnt + 1) _ _ rfl
      (by simp [ResilientCommand.initResult])
  · rw [show ResilientCommand.run_with_timeout (ResilientCommand.ProcOutcome.raised k2)
        = (Except.error k2 : Except ErrKind (Int × String × String)) from rfl]
    rw [Breaker_call_closed_err b2 n2 k2 hb2 hk2]
    split <;> rfl

/-- Claim C8, witness at a concrete persistently-failing (non-zero return
code) run. -/
theorem C8_nonzero_rc_never_opens_breaker_witness :
    allClosedZero (ResilientCommand.main (fun _ => .completed 1 "" "") (fun _ => 0) 3 2 5).brkTrace
      = true
    ∧ ((⟨5, 60, fun _ => false, .Closed, 0, 0⟩ : Breaker).call 0
        (ResilientCommand.run_with_timeout
          (ResilientCommand.ProcOutcome.raised ErrKind.other))).breaker.fail_counter
      = (⟨5, 60, fun _ => false, .Closed, 0, 0⟩ : Breaker).fail_counter + 1 :=
  C8_nonzero_rc_never_opens_breaker (fun _ => .completed 1 "" "") (fun _ => 0) 3 2 5
    ⟨5, 60, fun _ => false, .Closed, 0, 0⟩ 0 ErrKind.other
    (fun _ _ h => ResilientCommand.ProcOutcome.noConfusion h) rfl rfl

/-- Claim C9: in `resilient_ipmi.run_module` an attempt that completes with
a non-zero return code continues the loop immediately, leaving the sleep
list unchanged (the `time.sleep` sits only on the exception path): a run
whose attempts never raise performs no sleeps at all. -/
theorem C9_no_sleep_on_nonzero_rc
    (outcome : Nat → ResilientIpmi.IpmiOutcome) (rcnt dly : Nat) (fb : String) (fos : Bool)
    (remaining done : Nat) (cst : String) (sl : List Nat) (rc : Int) (o e : String)
    (outcome2 : Nat → ResilientIpmi.IpmiOutcome) (rcnt2 dly2 : Nat) (fb2 : String) (fos2 : Bool)
    (h1 : outcome (done + 1) = .ok rc o e) (h2 : rc ≠ 0)
    (h3 : ∀ a, outcome2 a ≠ .exc) :
    ResilientIpmi.ipmiLoop outcome rcnt dly fb fos (remaining + 1) done cst sl
      = ResilientIpmi.ipmiLoop outcome rcnt dly fb fos remaining (done + 1) "closed" sl
    ∧ (ResilientIpmi.run_module outcome2 rcnt2 dly2 fb2 fos2).sleeps = [] := by
  constructor
  · simp only [ResilientIpmi.ipmiLoop, h1]
    rw [if_pos h2]
  · simp only [ResilientIpmi.run_module]
    exact ipmiLoop_sleeps_no_exc outcome2 rcnt2 dly2 fb2 fos2 h3 rcnt2 0 "unknown" []

/-- Claim C9, witness: one non-zero-return-code step with concrete data, and
a concrete raise-free run with an empty sleep list. -/
theorem C9_no_sleep_on_nonzero_rc_witness :
    ResilientIpmi.ipmiLoop (fun _ => .ok 1 "" "") 3 2 "COMMAND_FAILED" false 3 0 "unknown" []
      = ResilientIpmi.ipmiLoop (fun _ => .ok 1 "" "") 3 2 "COMMAND_FAILED" false 2 1 "closed" []
    ∧ (ResilientIpmi.run_module (fun _ => .circuitOpen) 3 2 "COMMAND_FAILED" false).sleeps
      = [] :=
  C9_no_sleep_on_nonzero_rc (fun _ => .ok 1 "" "") 3 2 "COMMAND_FAILED" false 2 0 "unknown" []
    1 "" "" (fun _ => .circuitOpen) 3 2 "COMMAND_FAILED" false rfl (by decide)
    (fun _ h => ResilientIpmi.IpmiOutcome.noConfusion h)

/-- Claim C10: on the empty string the falsy-input guard returns the
argument unchanged, and `has_real_errors` of the empty string is false. -/
theorem C10_empty_stderr :
    clean_ipmi_stderr "" = "" ∧ has_real_errors "" = false := by decide

end GardenTiller
